import Mathlib

/-!
# os_generic.h: threads, mutexes, semaphores and time queries

A shallow embedding of `redist/os_generic.h`.  The header is a thin layer over
operating-system primitives, so every wrapper is embedded as a program over an
abstract operating system: a record of primitives acting on a state `σ`.
Two records are given, one per backend (`PosixOS` and `WinOS`), and each
wrapper is transcribed statement by statement from its C body.

Conventions of the embedding:

* a pointer or handle is a natural number, `0` being the null pointer;
* a primitive is a function `σ → Option (result × σ)`; `none` means that the
  call does not come back (the calling thread stays suspended in it);
* a wrapper yields `Res.ret v s` (it returned `v`), `Res.abort s` (it called
  `abort()`), or `Res.hang` (a primitive it called did not come back);
* primitives whose effect depends on the calling thread take its identity;
* an uninitialised local whose value may be read is a parameter of the wrapper;
* `int` arithmetic is 32-bit two's complement, `uint64_t` is reduction modulo `2^64`;
* every `double` the header returns is the conversion of an integer; it is represented
  by the integer it denotes, `toDouble` doing the rounding to a 53-bit significand.
-/

namespace OSGeneric

/-! ## Machine integers -/

/-- Value of a C `int` expression: 32-bit two's complement wrap-around. -/
def wrapInt32 (x : Int) : Int := (x + 2 ^ 31) % 2 ^ 32 - 2 ^ 31

/-- Conversion of a signed integer to `uint64_t`. -/
def toUInt64 (x : Int) : Nat := (x % 2 ^ 64).toNat

/-- Conversion to a 32-bit `DWORD`. -/
def toUInt32 (x : Nat) : Nat := x % 2 ^ 32

/-- Nearest natural with a 53-bit significand, ties to the even significand. -/
def roundSig53 (n : Nat) : Nat :=
  if n < 2 ^ 53 then n
  else
    let e := Nat.log2 n - 52
    let q := n / 2 ^ e
    let r := n % 2 ^ e
    let q1 := if 2 ^ e < 2 * r ∨ (2 * r = 2 ^ e ∧ q % 2 = 1) then q + 1 else q
    q1 * 2 ^ e

/-- Conversion of an integer to `double` (IEEE binary64, round to nearest even), as the
integer the resulting `double` denotes. -/
def toDouble (x : Int) : Int :=
  if 0 ≤ x then (roundSig53 x.toNat : Int) else -(roundSig53 (-x).toNat : Int)

/-! ## Programs over an operating system -/

/-- A `void *`: pointer or handle; `0` is null. -/
abbrev Ptr := Nat

/-- Identity of the thread executing a call. -/
abbrev Tid := Nat

/-- Outcome of running a wrapper from a given state. -/
inductive Res (σ α : Type) where
  | ret (val : α) (s : σ)
  | abort (s : σ)
  | hang

/-- An operating-system primitive; `none`: the call does not come back. -/
abbrev Sys (σ α : Type) := σ → Option (α × σ)

/-- A wrapper of the header. -/
def Prog (σ α : Type) := σ → Res σ α

/-- Return a value without touching the state. -/
def Prog.pure {σ α : Type} (a : α) : Prog σ α := fun s => Res.ret a s

/-- Sequencing: the continuation runs only when the first part returned. -/
def Prog.bind {σ α β : Type} (m : Prog σ α) (f : α → Prog σ β) : Prog σ β := fun s =>
  match m s with
  | Res.ret a s1 => f a s1
  | Res.abort s1 => Res.abort s1
  | Res.hang => Res.hang

instance {σ : Type} : Monad (Prog σ) where
  pure := Prog.pure
  bind := Prog.bind

/-- Invoke a primitive. -/
def call {σ α : Type} (f : Sys σ α) : Prog σ α := fun s =>
  match f s with
  | some (a, s1) => Res.ret a s1
  | none => Res.hang

/-- Read a value out of the state. -/
def peek {σ α : Type} (f : σ → α) : Prog σ α := fun s => Res.ret (f s) s

/-- Change the state by an action that always comes back. -/
def act {σ : Type} (f : σ → σ) : Prog σ Unit := fun s => Res.ret () (f s)

/-- The C library `abort()`. -/
def abort {σ α : Type} : Prog σ α := fun s => Res.abort s

/-- The wrapper called `abort()`. -/
def Res.aborted {σ α : Type} : Res σ α → Bool
  | Res.abort _ => true
  | _ => false

/-- The value returned, if the wrapper returned. -/
def Res.value? {σ α : Type} : Res σ α → Option α
  | Res.ret a _ => some a
  | _ => none

/-- The state left behind, if the wrapper returned or aborted. -/
def Res.state? {σ α : Type} : Res σ α → Option σ
  | Res.ret _ s => some s
  | Res.abort s => some s
  | Res.hang => none

/-- A thread entry function `void *(routine)(void *)`, represented by the value it
returns for each argument; `none` when it never returns. -/
abbrev Routine := Ptr → Option Ptr

/-! ## Data passed to the primitives -/

/-- The C `struct timespec`. -/
structure timespec where
  tv_sec : Int
  tv_nsec : Int
deriving DecidableEq, Repr

/-- The C `struct timeval`. -/
structure timeval where
  tv_sec : Int
  tv_usec : Int
deriving DecidableEq, Repr

/-- The field of `struct stat` the header reads. -/
structure stat_buf where
  st_mtime : Int
deriving DecidableEq, Repr

/-- Mutex types of `pthread_mutexattr_settype`. -/
inductive MutexType where
  | normal
  | errorcheck
  | recursive
deriving DecidableEq, Repr

/-- The C `pthread_mutexattr_t`, reduced to the attribute the header sets. -/
structure pthread_mutexattr_t where
  kind : MutexType
deriving DecidableEq, Repr

/-- Effect of `pthread_mutexattr_init(&mta)`: the default attributes. -/
def pthread_mutexattr_init : pthread_mutexattr_t := { kind := MutexType.normal }

/-- Effect of `pthread_mutexattr_settype(&mta, kind)`. -/
def pthread_mutexattr_settype (_mta : pthread_mutexattr_t) (kind : MutexType) :
    pthread_mutexattr_t := { kind := kind }

/-- The primitives the POSIX branch of the header calls. -/
structure PosixOS (σ : Type) where
  sizeof_pthread_t : Nat
  sizeof_pthread_mutex_t : Nat
  sizeof_sem_t : Nat
  malloc : Nat → Sys σ Ptr
  free : Ptr → Sys σ Unit
  /-- The call `fprintf(stderr, "%s: %s (%d)\n", msg, strerror(err), err)`. -/
  fprintf_stderr : String → Int → σ → σ
  nanosleep : timespec → Sys σ Int
  gettimeofday : Sys σ timeval
  /-- The call `stat(file, &buff)`: its result and the contents of `buff` afterwards. -/
  stat : String → Sys σ (Int × stat_buf)
  /-- The call `pthread_create(thread, 0, routine, parameter)`. -/
  pthread_create : Ptr → Routine → Ptr → Sys σ Int
  /-- The memory read `*(pthread_t *)ot`. -/
  load_pthread_t : Ptr → σ → Nat
  /-- The call `pthread_join(th, &retval)`: its result and the value stored in `retval`, if any. -/
  pthread_join : Nat → Sys σ (Int × Option Ptr)
  pthread_cancel : Nat → Sys σ Int
  pthread_mutex_init : Ptr → pthread_mutexattr_t → Sys σ Int
  pthread_mutex_lock : Tid → Ptr → Sys σ Int
  pthread_mutex_unlock : Tid → Ptr → Sys σ Int
  pthread_mutex_destroy : Ptr → Sys σ Int
  /-- The call `sem_init(sem, pshared, value)`. -/
  sem_init : Ptr → Int → Nat → Sys σ Int
  /-- The call `sem_getvalue(sem, &valp)`: its result and the value stored in `valp`, if any. -/
  sem_getvalue : Ptr → Sys σ (Int × Option Int)
  sem_wait : Ptr → Sys σ Int
  sem_post : Ptr → Sys σ Int
  sem_destroy : Ptr → Sys σ Int

namespace Posix

variable {σ : Type}

/-- The expression `(((uint64_t)tv.tv_sec) * 1000) + (tv.tv_usec / 1000)`. -/
def OGGetAbsoluteTimeMS_value (tv : timeval) : Nat :=
  ((toUInt64 tv.tv_sec * 1000) % 2 ^ 64 + toUInt64 (Int.tdiv tv.tv_usec 1000)) % 2 ^ 64

/-- Source: `OGGetAbsoluteTimeMS` (POSIX). -/
def OGGetAbsoluteTimeMS (os : PosixOS σ) : Prog σ Nat := do
  let tv ← call os.gettimeofday
  pure (OGGetAbsoluteTimeMS_value tv)

/-- Source: `OGGetFileTime` (POSIX). -/
def OGGetFileTime (os : PosixOS σ) (file : String) : Prog σ Int := do
  let (r, buff) ← call (os.stat file)
  if r < 0 then
    pure (toDouble (-1))
  else
    pure (toDouble buff.st_mtime)

/-- Source: `OGCreateThread` (POSIX). -/
def OGCreateThread (os : PosixOS σ) (routine : Routine) (parameter : Ptr) : Prog σ Ptr := do
  let ret ← call (os.malloc os.sizeof_pthread_t)
  let r ← call (os.pthread_create ret routine parameter)
  if r ≠ 0 then
    call (os.free ret)
    pure 0
  else
    pure ret

/-- Source: `OGJoinThread` (POSIX).  `retval` is the uninitialised local. -/
def OGJoinThread (os : PosixOS σ) (retval : Ptr) (ot : Ptr) : Prog σ Ptr :=
  if ot = 0 then
    pure 0
  else do
    let th ← peek (os.load_pthread_t ot)
    let (_, stored) ← call (os.pthread_join th)
    call (os.free ot)
    pure (stored.getD retval)

/-- Source: `OGCancelThread` (POSIX). -/
def OGCancelThread (os : PosixOS σ) (ot : Ptr) : Prog σ Unit :=
  if ot = 0 then
    pure ()
  else do
    let th ← peek (os.load_pthread_t ot)
    let _ ← call (os.pthread_cancel th)
    call (os.free ot)

/-- Source: `_OGHandlePosixError`. -/
def _OGHandlePosixError (os : PosixOS σ) (msg : String) (err : Int) : Prog σ Unit :=
  if err ≠ 0 then do
    act (os.fprintf_stderr msg err)
    abort
  else
    pure ()

/-- Source: `OGCreateMutex` (POSIX). -/
def OGCreateMutex (os : PosixOS σ) : Prog σ Ptr := do
  let r ← call (os.malloc os.sizeof_pthread_mutex_t)
  let mta := pthread_mutexattr_init
  let mta := pthread_mutexattr_settype mta MutexType.recursive
  let err ← call (os.pthread_mutex_init r mta)
  _OGHandlePosixError os "OGCreateMutex" err
  pure r

/-- Source: `OGLockMutex` (POSIX), executed by thread `self`. -/
def OGLockMutex (os : PosixOS σ) (self : Tid) (om : Ptr) : Prog σ Unit :=
  if om = 0 then
    pure ()
  else do
    let err ← call (os.pthread_mutex_lock self om)
    _OGHandlePosixError os "OGLockMutex" err

/-- Source: `OGUnlockMutex` (POSIX), executed by thread `self`. -/
def OGUnlockMutex (os : PosixOS σ) (self : Tid) (om : Ptr) : Prog σ Unit :=
  if om = 0 then
    pure ()
  else do
    let err ← call (os.pthread_mutex_unlock self om)
    _OGHandlePosixError os "OGUnlockMutex" err

/-- Source: `OGDeleteMutex` (POSIX). -/
def OGDeleteMutex (os : PosixOS σ) (om : Ptr) : Prog σ Unit :=
  if om = 0 then
    pure ()
  else do
    let _ ← call (os.pthread_mutex_destroy om)
    call (os.free om)

/-- Source: `OGCreateSema` (POSIX). -/
def OGCreateSema (os : PosixOS σ) : Prog σ Ptr := do
  let sem ← call (os.malloc os.sizeof_sem_t)
  let _ ← call (os.sem_init sem 0 0)
  pure sem

/-- Source: `OGGetSema` (POSIX).  `valp` is the uninitialised local. -/
def OGGetSema (os : PosixOS σ) (valp : Int) (sem : Ptr) : Prog σ Int := do
  let (_, stored) ← call (os.sem_getvalue sem)
  pure (stored.getD valp)

/-- Source: `OGLockSema` (POSIX). -/
def OGLockSema (os : PosixOS σ) (sem : Ptr) : Prog σ Unit := do
  let _ ← call (os.sem_wait sem)
  pure ()

/-- Source: `OGUnlockSema` (POSIX). -/
def OGUnlockSema (os : PosixOS σ) (sem : Ptr) : Prog σ Unit := do
  let _ ← call (os.sem_post sem)
  pure ()

/-- Source: `OGDeleteSema` (POSIX). -/
def OGDeleteSema (os : PosixOS σ) (sem : Ptr) : Prog σ Unit := do
  let _ ← call (os.sem_destroy sem)
  call (os.free sem)

end Posix

/-! ## The Windows backend -/

/-- The Win32 `FILETIME`. -/
structure FILETIME where
  dwLowDateTime : Nat
  dwHighDateTime : Nat
deriving DecidableEq, Repr

/-- The `SEMAPHORE_BASIC_INFORMATION` declared inside `OGGetSema`. -/
structure SEMAPHORE_BASIC_INFORMATION where
  CurrentCount : Nat
  MaximumCount : Nat
deriving DecidableEq, Repr

/-- The Win32 status `ERROR_SUCCESS`. -/
def ERROR_SUCCESS : Int := 0

/-- The primitives the Windows branch of the header calls. -/
structure WinOS (σ : Type) where
  sizeof_CRITICAL_SECTION : Nat
  INVALID_HANDLE_VALUE : Ptr
  malloc : Nat → Sys σ Ptr
  free : Ptr → Sys σ Unit
  Sleep : Int → Sys σ Unit
  /-- The call `CreateFile(file, GENERIC_READ, FILE_SHARE_READ, NULL, OPEN_EXISTING, 0, NULL)`. -/
  CreateFile : String → Sys σ Ptr
  /-- The call `GetFileTime(h, 0, 0, &ft)`: its result and the contents of `ft` afterwards. -/
  GetFileTime : Ptr → Sys σ (Bool × FILETIME)
  /-- The call `CreateThread(0, 0, routine, parameter, 0, 0)`. -/
  CreateThread : Routine → Ptr → Sys σ Ptr
  /-- The call `WaitForSingleObject(h, INFINITE)`. -/
  WaitForSingleObject : Ptr → Sys σ Nat
  CloseHandle : Ptr → Sys σ Bool
  InitializeCriticalSection : Ptr → Sys σ Unit
  EnterCriticalSection : Tid → Ptr → Sys σ Unit
  LeaveCriticalSection : Tid → Ptr → Sys σ Unit
  /-- The call `CreateSemaphore(0, initial, maximum, 0)`. -/
  CreateSemaphore : Nat → Nat → Sys σ Ptr
  /-- The call `ReleaseSemaphore(h, count, 0)`. -/
  ReleaseSemaphore : Ptr → Nat → Sys σ Bool
  /-- The call `GetProcAddress(GetModuleHandle("ntdll.dll"), "NtQuerySemaphore")`. -/
  resolve_NtQuerySemaphore : Sys σ Ptr
  /-- A call through the resolved function pointer: the status and the contents of
  `BasicInfo` afterwards. -/
  NtQuerySemaphore : Ptr → Ptr → Sys σ (Int × SEMAPHORE_BASIC_INFORMATION)
  /-- Read of the function-local `static _NtQuerySemaphore NtQuerySemaphore`. -/
  get_NtQuerySemaphore : σ → Ptr
  /-- Write of the function-local `static _NtQuerySemaphore NtQuerySemaphore`. -/
  set_NtQuerySemaphore : Ptr → σ → σ

namespace Windows

variable {σ : Type}

/-- Source: `OGGetFileTime` (Windows). -/
def OGGetFileTime (os : WinOS σ) (file : String) : Prog σ Int := do
  let h ← call (os.CreateFile file)
  if h = os.INVALID_HANDLE_VALUE then
    pure (toDouble (-1))
  else do
    let (_, ft) ← call (os.GetFileTime h)
    let _ ← call (os.CloseHandle h)
    pure (toDouble (toUInt32 (ft.dwHighDateTime + ft.dwLowDateTime)))

/-- Source: `OGCreateThread` (Windows). -/
def OGCreateThread (os : WinOS σ) (routine : Routine) (parameter : Ptr) : Prog σ Ptr :=
  call (os.CreateThread routine parameter)

/-- Source: `OGJoinThread` (Windows). -/
def OGJoinThread (os : WinOS σ) (ot : Ptr) : Prog σ Ptr := do
  let _ ← call (os.WaitForSingleObject ot)
  let _ ← call (os.CloseHandle ot)
  pure 0

/-- Source: `OGCancelThread` (Windows). -/
def OGCancelThread (os : WinOS σ) (ot : Ptr) : Prog σ Unit := do
  let _ ← call (os.CloseHandle ot)
  pure ()

/-- Source: `OGCreateMutex` (Windows). -/
def OGCreateMutex (os : WinOS σ) : Prog σ Ptr := do
  let mutex ← call (os.malloc os.sizeof_CRITICAL_SECTION)
  call (os.InitializeCriticalSection mutex)
  pure mutex

/-- Source: `OGLockMutex` (Windows), executed by thread `self`. -/
def OGLockMutex (os : WinOS σ) (self : Tid) (om : Ptr) : Prog σ Unit :=
  call (os.EnterCriticalSection self om)

/-- Source: `OGUnlockMutex` (Windows), executed by thread `self`. -/
def OGUnlockMutex (os : WinOS σ) (self : Tid) (om : Ptr) : Prog σ Unit :=
  call (os.LeaveCriticalSection self om)

/-- Source: `OGDeleteMutex` (Windows). -/
def OGDeleteMutex (os : WinOS σ) (om : Ptr) : Prog σ Unit :=
  call (os.free om)

/-- Source: `OGCreateSema` (Windows). -/
def OGCreateSema (os : WinOS σ) : Prog σ Ptr :=
  call (os.CreateSemaphore 0 32767)

/-- The tail of `OGGetSema` (Windows): the query through the function pointer `fn`. -/
def OGGetSema_query (os : WinOS σ) (fn : Ptr) (sem : Ptr) : Prog σ Int := do
  let (Status, BasicInfo) ← call (os.NtQuerySemaphore fn sem)
  if Status = ERROR_SUCCESS then
    pure (wrapInt32 BasicInfo.CurrentCount)
  else
    pure (-2)

/-- Source: `OGGetSema` (Windows). -/
def OGGetSema (os : WinOS σ) (sem : Ptr) : Prog σ Int := do
  let fn ← peek os.get_NtQuerySemaphore
  if fn = 0 then do
    let fn1 ← call os.resolve_NtQuerySemaphore
    act (os.set_NtQuerySemaphore fn1)
    if fn1 = 0 then
      pure (-1)
    else
      OGGetSema_query os fn1 sem
  else
    OGGetSema_query os fn sem

/-- Source: `OGLockSema` (Windows). -/
def OGLockSema (os : WinOS σ) (sem : Ptr) : Prog σ Unit := do
  let _ ← call (os.WaitForSingleObject sem)
  pure ()

/-- Source: `OGUnlockSema` (Windows). -/
def OGUnlockSema (os : WinOS σ) (sem : Ptr) : Prog σ Unit := do
  let _ ← call (os.ReleaseSemaphore sem 1)
  pure ()

/-- Source: `OGDeleteSema` (Windows). -/
def OGDeleteSema (os : WinOS σ) (sem : Ptr) : Prog σ Unit := do
  let _ ← call (os.CloseHandle sem)
  pure ()

end Windows

/-! ## Reference operating systems

The documented behaviour of the primitives, as far as the header relies on it.
The heap is a bump allocator that never runs out; a thread is represented by the
value its entry function returns; a recursive pthread mutex has a largest recursion
depth, past which `pthread_mutex_lock` fails with `EAGAIN`. -/

/-- Finite-map update on a table indexed by naturals. -/
def upd {α : Type} (f : Nat → α) (k : Nat) (v : α) : Nat → α :=
  fun x => if x = k then v else f x

/-- A pthread mutex: its type, the owning thread and the recursion depth. -/
structure RefMutex where
  kind : MutexType
  owner : Option Tid
  count : Nat
deriving DecidableEq, Repr

/-- State of the reference POSIX system. -/
structure PosixWorld where
  /-- Highest heap address handed out so far. -/
  brk : Nat
  /-- Initialised mutexes, by address. -/
  mutexes : Ptr → Option RefMutex
  /-- Initialised semaphores, by address, with their value. -/
  sems : Ptr → Option Nat
  /-- Memory cells holding a `pthread_t`. -/
  cells : Ptr → Nat
  /-- Joinable threads, by identifier, with the value their entry function returns. -/
  threads : Nat → Option (Option Ptr)
  /-- Identifier the next thread will get. -/
  nextThread : Nat
  /-- Number of threads the system is able to create. -/
  threadLimit : Nat
  /-- Largest recursion depth of a recursive mutex; a deeper lock fails with `EAGAIN`. -/
  maxRecursion : Nat
  /-- Modification time of each existing path. -/
  files : String → Option Int
  clock : timeval
  /-- Lines written to `stderr`: message and error number. -/
  stderr : List (String × Int)

/-- An empty system: nothing allocated, no file, room for `threadLimit` threads, and the
recursion limit of glibc (a 32-bit counter). -/
def PosixWorld.empty (threadLimit : Nat) : PosixWorld :=
  { brk := 0, mutexes := fun _ => none, sems := fun _ => none, cells := fun _ => 0,
    threads := fun _ => none, nextThread := 1, threadLimit := threadLimit,
    maxRecursion := 4294967295,
    files := fun _ => none, clock := { tv_sec := 0, tv_usec := 0 }, stderr := [] }

/-- Store a mutex at address `m`. -/
def PosixWorld.setMutex (w : PosixWorld) (m : Ptr) (mx : RefMutex) : PosixWorld :=
  { w with mutexes := upd w.mutexes m (some mx) }

/-- Store a semaphore with value `c` at address `sem`. -/
def PosixWorld.setSem (w : PosixWorld) (sem : Ptr) (c : Nat) : PosixWorld :=
  { w with sems := upd w.sems sem (some c) }

/-- Reference `pthread_mutex_lock`, called by thread `self`. -/
def refMutexLock (self : Tid) (m : Ptr) : Sys PosixWorld Int := fun w =>
  match w.mutexes m with
  | none => some (22, w)
  | some mx =>
    match mx.owner with
    | none => some (0, w.setMutex m { mx with owner := some self, count := 1 })
    | some o =>
      if o = self then
        match mx.kind with
        | MutexType.recursive =>
          if mx.count < w.maxRecursion then
            some (0, w.setMutex m { mx with count := mx.count + 1 })
          else some (11, w)
        | MutexType.errorcheck => some (35, w)
        | MutexType.normal => none
      else none

/-- Reference `pthread_mutex_unlock`, called by thread `self`. -/
def refMutexUnlock (self : Tid) (m : Ptr) : Sys PosixWorld Int := fun w =>
  match w.mutexes m with
  | none => some (22, w)
  | some mx =>
    if mx.owner = some self then
      if mx.count ≤ 1 then
        some (0, w.setMutex m { mx with owner := none, count := 0 })
      else
        some (0, w.setMutex m { mx with count := mx.count - 1 })
    else some (1, w)

/-- Reference `sem_post` for a system whose `SEM_VALUE_MAX` is `semValueMax`. -/
def refSemPost (semValueMax : Nat) (sem : Ptr) : Sys PosixWorld Int := fun w =>
  match w.sems sem with
  | none => some (-1, w)
  | some c =>
    if c < semValueMax then some (0, w.setSem sem (c + 1))
    else some (-1, w)

/-- Reference `sem_wait`. -/
def refSemWait (sem : Ptr) : Sys PosixWorld Int := fun w =>
  match w.sems sem with
  | none => some (-1, w)
  | some c =>
    if 0 < c then some (0, w.setSem sem (c - 1))
    else none

/-- Reference `pthread_create`. -/
def refThreadCreate (cell : Ptr) (routine : Routine) (parameter : Ptr) : Sys PosixWorld Int :=
  fun w =>
    if w.nextThread ≤ w.threadLimit then
      some (0, { w with threads := upd w.threads w.nextThread (some (routine parameter)),
                        cells := upd w.cells cell w.nextThread,
                        nextThread := w.nextThread + 1 })
    else some (11, w)

/-- Reference `pthread_join`. -/
def refThreadJoin (th : Nat) : Sys PosixWorld (Int × Option Ptr) := fun w =>
  match w.threads th with
  | none => some ((3, none), w)
  | some none => none
  | some (some v) => some ((0, some v), { w with threads := upd w.threads th none })

/-- The reference POSIX system, for a given `SEM_VALUE_MAX`. -/
def refPosix (semValueMax : Nat) : PosixOS PosixWorld where
  sizeof_pthread_t := 8
  sizeof_pthread_mutex_t := 40
  sizeof_sem_t := 32
  malloc := fun n w => some (w.brk + 1, { w with brk := w.brk + max n 1 })
  free := fun _ w => some ((), w)
  fprintf_stderr := fun msg err w => { w with stderr := w.stderr ++ [(msg, err)] }
  nanosleep := fun req w =>
    if 0 ≤ req.tv_sec ∧ 0 ≤ req.tv_nsec ∧ req.tv_nsec < 1000000000 then some (0, w)
    else some (-1, w)
  gettimeofday := fun w => some (w.clock, w)
  stat := fun file w =>
    match w.files file with
    | none => some ((-1, { st_mtime := 0 }), w)
    | some t => some ((0, { st_mtime := t }), w)
  pthread_create := refThreadCreate
  load_pthread_t := fun p w => w.cells p
  pthread_join := refThreadJoin
  pthread_cancel := fun th w =>
    match w.threads th with
    | none => some (3, w)
    | some _ => some (0, w)
  pthread_mutex_init := fun m attr w =>
    some (0, w.setMutex m { kind := attr.kind, owner := none, count := 0 })
  pthread_mutex_lock := refMutexLock
  pthread_mutex_unlock := refMutexUnlock
  pthread_mutex_destroy := fun m w =>
    match w.mutexes m with
    | none => some (22, w)
    | some _ => some (0, { w with mutexes := upd w.mutexes m none })
  sem_init := fun sem _ value w =>
    if value ≤ semValueMax then some (0, w.setSem sem value)
    else some (-1, w)
  sem_getvalue := fun sem w =>
    match w.sems sem with
    | none => some ((-1, none), w)
    | some c => some ((0, some (c : Int)), w)
  sem_wait := refSemWait
  sem_post := refSemPost semValueMax
  sem_destroy := fun sem w =>
    match w.sems sem with
    | none => some (-1, w)
    | some _ => some (0, { w with sems := upd w.sems sem none })

/-- Kernel objects of the reference Windows system. -/
inductive WinObject where
  /-- A thread, with the value its entry function returns. -/
  | thread (result : Option Ptr)
  | semaphore (count maximum : Nat)
  | file (lastWrite : FILETIME)
deriving DecidableEq, Repr

/-- A critical section: the owning thread and the recursion depth. -/
structure RefSection where
  owner : Option Tid
  count : Nat
deriving DecidableEq, Repr

/-- State of the reference Windows system. -/
structure WinWorld where
  brk : Nat
  /-- Open handles. -/
  objects : Ptr → Option WinObject
  /-- Number of handles opened so far; the next handle is its successor. -/
  nextHandle : Nat
  /-- Number of handles the system is able to open. -/
  handleLimit : Nat
  /-- Initialised critical sections, by address. -/
  sections : Ptr → Option RefSection
  /-- Last-write time of each existing path. -/
  files : String → Option FILETIME
  /-- Whether `ntdll.dll` exports `NtQuerySemaphore`. -/
  exportsQuery : Bool
  /-- The static variable of `OGGetSema`. -/
  static_NtQuerySemaphore : Ptr

/-- An empty system: nothing allocated, no file, room for `handleLimit` handles. -/
def WinWorld.empty (handleLimit : Nat) (exportsQuery : Bool) : WinWorld :=
  { brk := 0, objects := fun _ => none, nextHandle := 0, handleLimit := handleLimit,
    sections := fun _ => none, files := fun _ => none, exportsQuery := exportsQuery,
    static_NtQuerySemaphore := 0 }

/-- Bind handle `h` to a kernel object. -/
def WinWorld.setObject (w : WinWorld) (h : Ptr) (obj : WinObject) : WinWorld :=
  { w with objects := upd w.objects h (some obj) }

/-- Store a critical section at address `p`. -/
def WinWorld.setSection (w : WinWorld) (p : Ptr) (cs : RefSection) : WinWorld :=
  { w with sections := upd w.sections p (some cs) }

/-- Open a handle on a new kernel object; the null handle when none is left. -/
def refNewHandle (obj : WinObject) : Sys WinWorld Ptr := fun w =>
  if w.nextHandle < w.handleLimit then
    some (w.nextHandle + 1,
      { w with nextHandle := w.nextHandle + 1 }.setObject (w.nextHandle + 1) obj)
  else some (0, w)

/-- Reference `WaitForSingleObject(h, INFINITE)`. -/
def refWait (h : Ptr) : Sys WinWorld Nat := fun w =>
  match w.objects h with
  | none => some (4294967295, w)
  | some (WinObject.thread none) => none
  | some (WinObject.thread (some _)) => some (0, w)
  | some (WinObject.semaphore c m) =>
    if 0 < c then some (0, w.setObject h (WinObject.semaphore (c - 1) m))
    else none
  | some (WinObject.file _) => some (0, w)

/-- Reference `ReleaseSemaphore(h, n, 0)`. -/
def refRelease (h : Ptr) (n : Nat) : Sys WinWorld Bool := fun w =>
  match w.objects h with
  | some (WinObject.semaphore c m) =>
    if 0 < n ∧ c + n ≤ m then
      some (true, w.setObject h (WinObject.semaphore (c + n) m))
    else some (false, w)
  | _ => some (false, w)

/-- Reference `EnterCriticalSection`, called by thread `self`. -/
def refEnter (self : Tid) (p : Ptr) : Sys WinWorld Unit := fun w =>
  match w.sections p with
  | none => none
  | some cs =>
    match cs.owner with
    | none => some ((), w.setSection p { owner := some self, count := 1 })
    | some o =>
      if o = self then
        some ((), w.setSection p { cs with count := cs.count + 1 })
      else none

/-- Reference `LeaveCriticalSection`, called by thread `self`. -/
def refLeave (self : Tid) (p : Ptr) : Sys WinWorld Unit := fun w =>
  match w.sections p with
  | none => none
  | some cs =>
    if cs.owner = some self then
      if cs.count ≤ 1 then
        some ((), w.setSection p { owner := none, count := 0 })
      else
        some ((), w.setSection p { cs with count := cs.count - 1 })
    else some ((), w)

/-- The reference Windows system. -/
def refWin : WinOS WinWorld where
  sizeof_CRITICAL_SECTION := 40
  INVALID_HANDLE_VALUE := 2 ^ 64 - 1
  malloc := fun n w => some (w.brk + 1, { w with brk := w.brk + max n 1 })
  free := fun _ w => some ((), w)
  Sleep := fun _ w => some ((), w)
  CreateFile := fun file w =>
    match w.files file with
    | none => some (2 ^ 64 - 1, w)
    | some ft =>
      match refNewHandle (WinObject.file ft) w with
      | some (0, w1) => some (2 ^ 64 - 1, w1)
      | r => r
  GetFileTime := fun h w =>
    match w.objects h with
    | some (WinObject.file ft) => some ((true, ft), w)
    | _ => some ((false, { dwLowDateTime := 0, dwHighDateTime := 0 }), w)
  CreateThread := fun routine parameter => refNewHandle (WinObject.thread (routine parameter))
  WaitForSingleObject := refWait
  CloseHandle := fun h w =>
    match w.objects h with
    | none => some (false, w)
    | some _ => some (true, { w with objects := upd w.objects h none })
  InitializeCriticalSection := fun p w =>
    some ((), w.setSection p { owner := none, count := 0 })
  EnterCriticalSection := refEnter
  LeaveCriticalSection := refLeave
  CreateSemaphore := fun initial maximum w =>
    if 0 < maximum ∧ initial ≤ maximum then refNewHandle (WinObject.semaphore initial maximum) w
    else some (0, w)
  ReleaseSemaphore := refRelease
  resolve_NtQuerySemaphore := fun w => some (if w.exportsQuery then 4096 else 0, w)
  NtQuerySemaphore := fun _ sem w =>
    match w.objects sem with
    | some (WinObject.semaphore c m) => some ((0, { CurrentCount := c, MaximumCount := m }), w)
    | _ => some ((-1073741816, { CurrentCount := 0, MaximumCount := 0 }), w)
  get_NtQuerySemaphore := fun w => w.static_NtQuerySemaphore
  set_NtQuerySemaphore := fun fn w => { w with static_NtQuerySemaphore := fn }

/-- A primitive call of the Windows backend, with the handle it was given. -/
inductive WinCall where
  | WaitForSingleObject (h : Ptr)
  | CloseHandle (h : Ptr)
  | EnterCriticalSection (p : Ptr)
  | LeaveCriticalSection (p : Ptr)
  | other
deriving DecidableEq, Repr

/-- A recording system: every primitive comes back at once and its call is logged. -/
def recWin : WinOS (List WinCall) where
  sizeof_CRITICAL_SECTION := 40
  INVALID_HANDLE_VALUE := 2 ^ 64 - 1
  malloc := fun _ l => some (1, l ++ [WinCall.other])
  free := fun _ l => some ((), l ++ [WinCall.other])
  Sleep := fun _ l => some ((), l ++ [WinCall.other])
  CreateFile := fun _ l => some (1, l ++ [WinCall.other])
  GetFileTime := fun _ l => some ((true, { dwLowDateTime := 0, dwHighDateTime := 0 }), l ++ [WinCall.other])
  CreateThread := fun _ _ l => some (1, l ++ [WinCall.other])
  WaitForSingleObject := fun h l => some (0, l ++ [WinCall.WaitForSingleObject h])
  CloseHandle := fun h l => some (true, l ++ [WinCall.CloseHandle h])
  InitializeCriticalSection := fun _ l => some ((), l ++ [WinCall.other])
  EnterCriticalSection := fun _ p l => some ((), l ++ [WinCall.EnterCriticalSection p])
  LeaveCriticalSection := fun _ p l => some ((), l ++ [WinCall.LeaveCriticalSection p])
  CreateSemaphore := fun _ _ l => some (1, l ++ [WinCall.other])
  ReleaseSemaphore := fun _ _ l => some (true, l ++ [WinCall.other])
  resolve_NtQuerySemaphore := fun l => some (1, l ++ [WinCall.other])
  NtQuerySemaphore := fun _ _ l => some ((0, { CurrentCount := 0, MaximumCount := 0 }), l ++ [WinCall.other])
  get_NtQuerySemaphore := fun _ => 1
  set_NtQuerySemaphore := fun _ l => l

/-- Run a wrapper `n` times in a row, each time from the state the previous run left. -/
def repeatProg {σ : Type} (p : Prog σ Unit) : Nat → Prog σ Unit
  | 0 => Prog.pure ()
  | n + 1 => Prog.bind (repeatProg p n) (fun _ => p)

/-! ## Stepping through a wrapper -/

section Stepping

variable {σ : Type}

theorem bind_ret {α β : Type} (m : Prog σ α) (f : α → Prog σ β) (s s1 : σ) (a : α)
    (h : m s = Res.ret a s1) : (m >>= f) s = f a s1 := by
  show Prog.bind m f s = f a s1
  simp [Prog.bind, h]

theorem bind_hang {α β : Type} (m : Prog σ α) (f : α → Prog σ β) (s : σ)
    (h : m s = Res.hang) : (m >>= f) s = Res.hang := by
  show Prog.bind m f s = Res.hang
  simp [Prog.bind, h]

theorem bind_abort {α β : Type} (m : Prog σ α) (f : α → Prog σ β) (s s1 : σ)
    (h : m s = Res.abort s1) : (m >>= f) s = Res.abort s1 := by
  show Prog.bind m f s = Res.abort s1
  simp [Prog.bind, h]

theorem call_some {α : Type} (f : Sys σ α) (s s1 : σ) (a : α) (h : f s = some (a, s1)) :
    call f s = Res.ret a s1 := by
  simp [call, h]

theorem pure_run {α : Type} (a : α) (s : σ) : (pure a : Prog σ α) s = Res.ret a s := rfl

theorem handle_zero (os : PosixOS σ) (msg : String) (s : σ) :
    Posix._OGHandlePosixError os msg 0 s = Res.ret () s := by
  simp [Posix._OGHandlePosixError, pure, Prog.pure]

theorem handle_nonzero (os : PosixOS σ) (msg : String) (err : Int) (h : err ≠ 0) (s : σ) :
    Posix._OGHandlePosixError os msg err s = Res.abort (os.fprintf_stderr msg err s) := by
  simp [Posix._OGHandlePosixError, h, bind, Prog.bind, act, abort]

/-- What `_OGHandlePosixError` does with an error code, as one case split. -/
theorem handle_cases (os : PosixOS σ) (msg : String) (err : Int) (s : σ) (out : Res σ Unit)
    (e : out = Posix._OGHandlePosixError os msg err s) :
    (out.aborted = true ↔ err ≠ 0) ∧
    (err ≠ 0 → out = Res.abort (os.fprintf_stderr msg err s)) ∧
    (err = 0 → out = Res.ret () s) := by
  subst e
  by_cases he : err = 0
  · subst he
    simp [handle_zero, Res.aborted]
  · simp [handle_nonzero _ _ _ he, Res.aborted, he]

theorem lock_step (os : PosixOS σ) (self : Tid) (om : Ptr) (hom : om ≠ 0) (s s1 : σ) (err : Int)
    (h : os.pthread_mutex_lock self om s = some (err, s1)) :
    Posix.OGLockMutex os self om s = Posix._OGHandlePosixError os "OGLockMutex" err s1 := by
  simp only [Posix.OGLockMutex, hom, if_false]
  exact bind_ret _ _ _ _ _ (call_some _ _ _ _ h)

theorem unlock_step (os : PosixOS σ) (self : Tid) (om : Ptr) (hom : om ≠ 0) (s s1 : σ) (err : Int)
    (h : os.pthread_mutex_unlock self om s = some (err, s1)) :
    Posix.OGUnlockMutex os self om s = Posix._OGHandlePosixError os "OGUnlockMutex" err s1 := by
  simp only [Posix.OGUnlockMutex, hom, if_false]
  exact bind_ret _ _ _ _ _ (call_some _ _ _ _ h)

theorem create_mutex_step (os : PosixOS σ) (s s1 s2 : σ) (r : Ptr) (err : Int)
    (h1 : os.malloc os.sizeof_pthread_mutex_t s = some (r, s1))
    (h2 : os.pthread_mutex_init r { kind := MutexType.recursive } s1 = some (err, s2)) :
    Posix.OGCreateMutex os s =
      (Posix._OGHandlePosixError os "OGCreateMutex" err >>= fun _ => pure r) s2 := by
  unfold Posix.OGCreateMutex
  rw [bind_ret _ _ _ _ _ (call_some _ _ _ _ h1)]
  simp only [pthread_mutexattr_settype]
  rw [bind_ret _ _ _ _ _ (call_some _ _ _ _ h2)]

end Stepping

/-! ## Machine arithmetic -/

theorem wrapInt32_eq (x : Int) (h1 : -2147483648 ≤ x) (h2 : x < 2147483648) :
    wrapInt32 x = x := by
  unfold wrapInt32
  omega

theorem roundSig53_small (n : Nat) (h : n < 2 ^ 53) : roundSig53 n = n := by
  unfold roundSig53
  rw [if_pos h]

/-- Integers of magnitude below `2^53` convert to `double` exactly. -/
theorem toDouble_small (x : Int) (h1 : -9007199254740992 < x) (h2 : x < 9007199254740992) :
    toDouble x = x := by
  unfold toDouble
  split
  · rw [roundSig53_small _ (by omega)]
    omega
  · rw [roundSig53_small _ (by omega)]
    omega

/-- Past `2^53` the conversion rounds: `2^53 + 1` becomes `2^53`. -/
theorem toDouble_rounds : toDouble 9007199254740993 = 9007199254740992 := by
  have hl : Nat.log2 9007199254740993 = 53 := by
    rw [Nat.log2_eq_log_two]
    exact Nat.log_eq_of_pow_le_of_lt_pow (by norm_num) (by norm_num)
  have h : roundSig53 9007199254740993 = 9007199254740992 := by
    unfold roundSig53
    rw [if_neg (by norm_num), hl]
    norm_num
  unfold toDouble
  rw [if_pos (by norm_num)]
  show ((roundSig53 9007199254740993 : Nat) : Int) = 9007199254740992
  rw [h]
  rfl

theorem toDouble_neg_one : toDouble (-1) = -1 := toDouble_small _ (by decide) (by decide)

theorem toDouble_dword (n : Nat) : toDouble (toUInt32 n : Nat) = (toUInt32 n : Nat) := by
  have : toUInt32 n < 4294967296 := by
    unfold toUInt32
    omega
  exact toDouble_small _ (by omega) (by omega)

theorem toUInt64_eq (x : Int) (h1 : 0 ≤ x) (h2 : x < 2 ^ 64) : (toUInt64 x : Int) = x := by
  unfold toUInt64
  rw [Int.toNat_of_nonneg (Int.emod_nonneg _ (by norm_num))]
  exact Int.emod_eq_of_lt h1 h2

theorem absolute_time_ms_value (sec usec : Int) (hs : 0 ≤ sec) (hu0 : 0 ≤ usec)
    (hu1 : usec < 1000000) (hb : sec * 1000 + 999 < 2 ^ 64) :
    (Posix.OGGetAbsoluteTimeMS_value { tv_sec := sec, tv_usec := usec } : Int)
      = (sec * 1000000 + usec) / 1000 := by
  unfold Posix.OGGetAbsoluteTimeMS_value
  have e1 := toUInt64_eq sec hs (by omega)
  have hq : Int.tdiv usec 1000 = usec / 1000 := Int.tdiv_eq_ediv hu0 (by norm_num)
  have hq0 : 0 ≤ usec / 1000 := Int.ediv_nonneg hu0 (by norm_num)
  have hq1 : usec / 1000 < 1000 := by omega
  have e2 := toUInt64_eq (Int.tdiv usec 1000) (by omega) (by omega)
  simp only []
  push_cast
  rw [e1, e2, hq]
  omega

/-! ## The reference systems, step by step -/

theorem upd_same {α : Type} (f : Nat → α) (k : Nat) (v : α) : upd f k v k = v := by
  simp [upd]

theorem upd_upd {α : Type} (f : Nat → α) (k : Nat) (a b : α) :
    upd (upd f k a) k b = upd f k b := by
  funext x
  simp only [upd]
  split <;> rfl

theorem repeat_succ {σ : Type} (p : Prog σ Unit) (n : Nat) (s s1 : σ)
    (h : repeatProg p n s = Res.ret () s1) : repeatProg p (n + 1) s = p s1 := by
  show Prog.bind (repeatProg p n) (fun _ => p) s = p s1
  simp [Prog.bind, h]

theorem repeat_zero {σ : Type} (p : Prog σ Unit) (s : σ) : repeatProg p 0 s = Res.ret () s := rfl

theorem setSem_get (w : PosixWorld) (sem : Ptr) (c : Nat) :
    (w.setSem sem c).sems sem = some c := by
  simp [PosixWorld.setSem, upd]

theorem setSem_setSem (w : PosixWorld) (sem : Ptr) (a b : Nat) :
    (w.setSem sem a).setSem sem b = w.setSem sem b := by
  simp [PosixWorld.setSem, upd_upd]

theorem posix_post_step (smax : Nat) (sem : Ptr) (w : PosixWorld) (c : Nat) (hc : c ≤ smax) :
    Posix.OGUnlockSema (refPosix smax) sem (w.setSem sem c)
      = Res.ret () (w.setSem sem (min (c + 1) smax)) := by
  unfold Posix.OGUnlockSema
  by_cases h : c < smax
  · have e : (refPosix smax).sem_post sem (w.setSem sem c) = some (0, w.setSem sem (c + 1)) := by
      simp [refPosix, refSemPost, setSem_get, setSem_setSem, h]
    rw [bind_ret _ _ _ _ _ (call_some _ _ _ _ e), Nat.min_eq_left (by omega)]
    rfl
  · have e : (refPosix smax).sem_post sem (w.setSem sem c) = some (-1, w.setSem sem c) := by
      simp [refPosix, refSemPost, setSem_get, h]
    rw [bind_ret _ _ _ _ _ (call_some _ _ _ _ e), Nat.min_eq_right (by omega),
      show smax = c by omega]
    rfl

theorem posix_post_k (smax : Nat) (sem : Ptr) (w : PosixWorld) (k : Nat) :
    repeatProg (Posix.OGUnlockSema (refPosix smax) sem) k (w.setSem sem 0)
      = Res.ret () (w.setSem sem (min k smax)) := by
  induction k with
  | zero => simp [repeat_zero]
  | succ k ih =>
    rw [repeat_succ _ _ _ _ ih, posix_post_step smax sem w _ (Nat.min_le_right _ _)]
    congr 2
    omega

theorem posix_create_sema (smax : Nat) (w : PosixWorld) :
    Posix.OGCreateSema (refPosix smax) w
      = Res.ret (w.brk + 1) (PosixWorld.setSem { w with brk := w.brk + 32 } (w.brk + 1) 0) := by
  have e : (refPosix smax).sem_init (w.brk + 1) 0 0 { w with brk := w.brk + 32 }
      = some (0, PosixWorld.setSem { w with brk := w.brk + 32 } (w.brk + 1) 0) := by
    simp [refPosix]
  have a : (refPosix smax).malloc (refPosix smax).sizeof_sem_t w
      = some (w.brk + 1, { w with brk := w.brk + 32 }) := rfl
  unfold Posix.OGCreateSema
  rw [bind_ret _ _ w { w with brk := w.brk + 32 } (w.brk + 1) (call_some _ _ _ _ a),
    bind_ret _ _ _ _ _ (call_some _ _ _ _ e)]
  rfl

theorem posix_get_sema (smax : Nat) (valp : Int) (sem : Ptr) (w : PosixWorld) (c : Nat) :
    Posix.OGGetSema (refPosix smax) valp sem (w.setSem sem c)
      = Res.ret (c : Int) (w.setSem sem c) := by
  have e : (refPosix smax).sem_getvalue sem (w.setSem sem c)
      = some ((0, some (c : Int)), w.setSem sem c) := by
    simp [refPosix, setSem_get]
  unfold Posix.OGGetSema
  rw [bind_ret _ _ _ _ _ (call_some _ _ _ _ e)]
  rfl

theorem posix_sema_after_posts (smax : Nat) (w : PosixWorld) (k : Nat) (valp : Int) :
    ((Posix.OGCreateSema (refPosix smax) >>= fun sem =>
      repeatProg (Posix.OGUnlockSema (refPosix smax) sem) k >>= fun _ =>
      Posix.OGGetSema (refPosix smax) valp sem) w).value? = some ((min k smax : Nat) : Int) := by
  rw [bind_ret _ _ _ _ _ (posix_create_sema smax w),
    bind_ret _ _ _ _ _ (posix_post_k smax _ _ k), posix_get_sema]
  rfl

theorem setObject_get (w : WinWorld) (h : Ptr) (o : WinObject) :
    (w.setObject h o).objects h = some o := by
  simp [WinWorld.setObject, upd]

theorem setObject_setObject (w : WinWorld) (h : Ptr) (a b : WinObject) :
    (w.setObject h a).setObject h b = w.setObject h b := by
  simp [WinWorld.setObject, upd_upd]

theorem win_post_step (h : Ptr) (w : WinWorld) (c m : Nat) (hc : c ≤ m) :
    Windows.OGUnlockSema refWin h (w.setObject h (WinObject.semaphore c m))
      = Res.ret () (w.setObject h (WinObject.semaphore (min (c + 1) m) m)) := by
  unfold Windows.OGUnlockSema
  by_cases hlt : c + 1 ≤ m
  · have e : refWin.ReleaseSemaphore h 1 (w.setObject h (WinObject.semaphore c m))
        = some (true, w.setObject h (WinObject.semaphore (c + 1) m)) := by
      simp [refWin, refRelease, setObject_get, setObject_setObject, hlt]
    rw [bind_ret _ _ _ _ _ (call_some _ _ _ _ e), Nat.min_eq_left hlt]
    rfl
  · have e : refWin.ReleaseSemaphore h 1 (w.setObject h (WinObject.semaphore c m))
        = some (false, w.setObject h (WinObject.semaphore c m)) := by
      simp [refWin, refRelease, setObject_get, hlt]
    rw [bind_ret _ _ _ _ _ (call_some _ _ _ _ e), Nat.min_eq_right (by omega),
      show m = c by omega]
    rfl

theorem win_post_k (h : Ptr) (w : WinWorld) (m k : Nat) :
    repeatProg (Windows.OGUnlockSema refWin h) k (w.setObject h (WinObject.semaphore 0 m))
      = Res.ret () (w.setObject h (WinObject.semaphore (min k m) m)) := by
  induction k with
  | zero => simp [repeat_zero]
  | succ k ih =>
    rw [repeat_succ _ _ _ _ ih, win_post_step h w _ m (Nat.min_le_right _ _)]
    congr 3
    omega

theorem win_create_sema (w : WinWorld) (hroom : w.nextHandle < w.handleLimit) :
    Windows.OGCreateSema refWin w
      = Res.ret (w.nextHandle + 1)
          (WinWorld.setObject { w with nextHandle := w.nextHandle + 1 } (w.nextHandle + 1)
            (WinObject.semaphore 0 32767)) := by
  have e : refWin.CreateSemaphore 0 32767 w
      = some (w.nextHandle + 1,
          WinWorld.setObject { w with nextHandle := w.nextHandle + 1 } (w.nextHandle + 1)
            (WinObject.semaphore 0 32767)) := by
    simp [refWin, refNewHandle, hroom]
  exact call_some _ _ _ _ e

theorem win_get_sema (h : Ptr) (w : WinWorld) (c m : Nat) (hq : w.exportsQuery = true) :
    (Windows.OGGetSema refWin h (w.setObject h (WinObject.semaphore c m))).value?
      = some (wrapInt32 c) := by
  have q : ∀ (fn : Ptr) (w1 : WinWorld), w1.objects h = some (WinObject.semaphore c m) →
      (Windows.OGGetSema_query refWin fn h w1).value? = some (wrapInt32 c) := by
    intro fn w1 hw
    have e : refWin.NtQuerySemaphore fn h w1
        = some ((0, { CurrentCount := c, MaximumCount := m }), w1) := by
      simp [refWin, hw]
    unfold Windows.OGGetSema_query
    rw [bind_ret _ _ _ _ _ (call_some _ _ _ _ e)]
    rfl
  have a : peek refWin.get_NtQuerySemaphore (w.setObject h (WinObject.semaphore c m))
      = Res.ret w.static_NtQuerySemaphore (w.setObject h (WinObject.semaphore c m)) := rfl
  unfold Windows.OGGetSema
  rw [bind_ret _ _ (w.setObject h (WinObject.semaphore c m)) (w.setObject h (WinObject.semaphore c m))
    w.static_NtQuerySemaphore a]
  by_cases h0 : w.static_NtQuerySemaphore = 0
  · simp only [h0, if_true]
    have e : refWin.resolve_NtQuerySemaphore (w.setObject h (WinObject.semaphore c m))
        = some (4096, w.setObject h (WinObject.semaphore c m)) := by
      simp [refWin, WinWorld.setObject, hq]
    have b : act (refWin.set_NtQuerySemaphore 4096) (w.setObject h (WinObject.semaphore c m))
        = Res.ret () (refWin.set_NtQuerySemaphore 4096 (w.setObject h (WinObject.semaphore c m))) :=
      rfl
    rw [bind_ret _ _ (w.setObject h (WinObject.semaphore c m))
        (w.setObject h (WinObject.semaphore c m)) 4096 (call_some _ _ _ _ e),
      bind_ret _ _ _ _ _ b]
    simp only [show (4096 : Ptr) ≠ 0 by decide, if_false]
    exact q _ _ (by simp [refWin, WinWorld.setObject, upd])
  · simp only [h0, if_false]
    exact q _ _ (setObject_get _ _ _)

theorem win_sema_after_posts (w : WinWorld) (k : Nat) (hroom : w.nextHandle < w.handleLimit)
    (hq : w.exportsQuery = true) :
    ((Windows.OGCreateSema refWin >>= fun sem =>
      repeatProg (Windows.OGUnlockSema refWin sem) k >>= fun _ =>
      Windows.OGGetSema refWin sem) w).value? = some ((min k 32767 : Nat) : Int) := by
  rw [bind_ret _ _ _ _ _ (win_create_sema w hroom),
    bind_ret _ _ _ _ _ (win_post_k _ _ 32767 k),
    win_get_sema _ { w with nextHandle := w.nextHandle + 1 } _ _ hq]
  have hb : ((min k 32767 : Nat) : Int) ≤ 32767 := by
    have := Nat.min_le_right k 32767
    omega
  rw [wrapInt32_eq _ (by omega) (by omega)]

theorem posix_create_thread_step {σ : Type} (os : PosixOS σ) (routine : Routine) (parameter : Ptr)
    (s s1 s2 : σ) (p : Ptr) (r : Int)
    (hmalloc : os.malloc os.sizeof_pthread_t s = some (p, s1))
    (hcreate : os.pthread_create p routine parameter s1 = some (r, s2)) :
    Posix.OGCreateThread os routine parameter s
      = (if r ≠ 0 then (call (os.free p) >>= fun _ => (pure 0 : Prog σ Ptr)) else pure p) s2 := by
  unfold Posix.OGCreateThread
  rw [bind_ret _ _ _ _ _ (call_some _ _ _ _ hmalloc),
    bind_ret _ _ _ _ _ (call_some _ _ _ _ hcreate)]

theorem posix_join_step {σ : Type} (os : PosixOS σ) (retval ot : Ptr) (hot : ot ≠ 0)
    (s s1 s2 : σ) (rc : Int) (stored : Option Ptr)
    (hjoin : os.pthread_join (os.load_pthread_t ot s) s = some ((rc, stored), s1))
    (hfree : os.free ot s1 = some ((), s2)) :
    Posix.OGJoinThread os retval ot s = Res.ret (stored.getD retval) s2 := by
  have a : peek (os.load_pthread_t ot) s = Res.ret (os.load_pthread_t ot s) s := rfl
  simp only [Posix.OGJoinThread, hot, if_false]
  rw [bind_ret _ _ s s (os.load_pthread_t ot s) a,
    bind_ret _ _ _ _ _ (call_some _ _ _ _ hjoin)]
  show (call (os.free ot) >>= fun _ => (pure (stored.getD retval) : Prog σ Ptr)) s1 = _
  rw [bind_ret _ _ _ _ _ (call_some _ _ _ _ hfree)]
  rfl

/-! ## The Windows counterparts of two POSIX queries -/

/-- The Windows `OGGetSema` answers `-1` when `NtQuerySemaphore` cannot be resolved and
`-2` when the query comes back with a status other than `ERROR_SUCCESS`. -/
theorem windows_get_sema_failure_negative {σ : Type} (os : WinOS σ) (sem fn : Ptr) (s s1 : σ)
    (status : Int) (info : SEMAPHORE_BASIC_INFORMATION) :
    (os.get_NtQuerySemaphore s = 0 → os.resolve_NtQuerySemaphore s = some (0, s1) →
      Windows.OGGetSema os sem s = Res.ret (-1) (os.set_NtQuerySemaphore 0 s1)) ∧
    (status ≠ ERROR_SUCCESS → os.NtQuerySemaphore fn sem s = some ((status, info), s1) →
      Windows.OGGetSema_query os fn sem s = Res.ret (-2) s1) := by
  constructor
  · intro h0 hr
    have a : peek os.get_NtQuerySemaphore s = Res.ret 0 s := by
      simp [peek, h0]
    have b : act (os.set_NtQuerySemaphore 0) s1 = Res.ret () (os.set_NtQuerySemaphore 0 s1) := rfl
    unfold Windows.OGGetSema
    rw [bind_ret _ _ s s 0 a]
    simp only [if_true]
    rw [bind_ret _ _ s s1 0 (call_some _ _ _ _ hr), bind_ret _ _ _ _ _ b]
    rfl
  · intro hs hq
    unfold Windows.OGGetSema_query
    rw [bind_ret _ _ _ _ _ (call_some _ _ _ _ hq)]
    simp [hs, pure_run]

/-- The Windows `OGGetFileTime` answers `-1` when `CreateFile` gives `INVALID_HANDLE_VALUE`
and otherwise the 32-bit sum of the two halves of the last-write `FILETIME`. -/
theorem windows_file_time_value {σ : Type} (os : WinOS σ) (file : String) (s s1 s2 s3 : σ)
    (h : Ptr) (ok closed : Bool) (ft : FILETIME) (hopen : os.CreateFile file s = some (h, s1)) :
    (h = os.INVALID_HANDLE_VALUE → Windows.OGGetFileTime os file s = Res.ret (-1) s1) ∧
    (h ≠ os.INVALID_HANDLE_VALUE → os.GetFileTime h s1 = some ((ok, ft), s2) →
      os.CloseHandle h s2 = some (closed, s3) →
      Windows.OGGetFileTime os file s
        = Res.ret (((ft.dwHighDateTime + ft.dwLowDateTime) % 4294967296 : Nat) : Int) s3) := by
  constructor
  · intro hh
    unfold Windows.OGGetFileTime
    rw [bind_ret _ _ _ _ _ (call_some _ _ _ _ hopen)]
    simp [hh, pure_run, toDouble_neg_one]
  · intro hh hg hc
    unfold Windows.OGGetFileTime
    rw [bind_ret _ _ _ _ _ (call_some _ _ _ _ hopen)]
    simp only [hh, if_false]
    rw [bind_ret _ _ _ _ _ (call_some _ _ _ _ hg)]
    show (call (os.CloseHandle h) >>= fun _ => (pure _ : Prog σ Int)) s2 = _
    rw [bind_ret _ _ _ _ _ (call_some _ _ _ _ hc), pure_run, toDouble_dword]
    rfl

/-- The POSIX `OGGetFileTime` answers `-1` when `stat` comes back negative and otherwise
the `st_mtime` that `stat` stored, converted to `double`; `stat` is the only primitive it
calls, so when `stat` leaves the system as it found it, so does the query, and a second
query of the same path returns the same value. -/
theorem posix_file_time_value {σ : Type} (os : PosixOS σ) (file : String) (s s1 : σ)
    (r : Int) (buff : stat_buf) (hstat : os.stat file s = some ((r, buff), s1)) :
    (r < 0 → Posix.OGGetFileTime os file s = Res.ret (-1) s1) ∧
    (0 ≤ r → Posix.OGGetFileTime os file s = Res.ret (toDouble buff.st_mtime) s1) ∧
    (s1 = s → ∃ v, Posix.OGGetFileTime os file s = Res.ret v s ∧
      (Posix.OGGetFileTime os file >>= fun a =>
        Posix.OGGetFileTime os file >>= fun b => pure (a, b)) s = Res.ret (v, v) s) := by
  have e : Posix.OGGetFileTime os file s
      = (if r < 0 then (pure (toDouble (-1)) : Prog σ Int)
          else pure (toDouble buff.st_mtime)) s1 := by
    unfold Posix.OGGetFileTime
    rw [bind_ret _ _ _ _ _ (call_some _ _ _ _ hstat)]
  have a : r < 0 → Posix.OGGetFileTime os file s = Res.ret (-1) s1 := by
    intro h; rw [e]; simp [h, pure_run, toDouble_neg_one]
  have b : 0 ≤ r → Posix.OGGetFileTime os file s = Res.ret (toDouble buff.st_mtime) s1 := by
    intro h; rw [e]; simp [not_lt.mpr h, pure_run]
  refine ⟨a, b, ?_⟩
  intro hs
  subst hs
  have c : ∃ v, Posix.OGGetFileTime os file s1 = Res.ret v s1 := by
    by_cases h : r < 0
    · exact ⟨_, a h⟩
    · exact ⟨_, b (not_lt.mp h)⟩
  obtain ⟨v, hv⟩ := c
  refine ⟨v, hv, ?_⟩
  rw [bind_ret _ _ _ _ _ hv, bind_ret _ _ _ _ _ hv]
  rfl

/-! ## Claims -/

/-- C1. Called with a null handle, the POSIX `OGLockMutex`, `OGUnlockMutex` and
`OGJoinThread` return at once with the state untouched (and `OGJoinThread` returns null),
whatever the operating system does.  The Windows ones do not: they hand the null handle
to `EnterCriticalSection`, `LeaveCriticalSection`, and `WaitForSingleObject` followed by
`CloseHandle`, as the recording system shows, and in the reference system locking
through the null handle never comes back. -/
theorem null_handle_reaches_windows_primitives :
    (∀ (σ : Type) (os : PosixOS σ) (self : Tid) (retval : Ptr) (s : σ),
      Posix.OGLockMutex os self 0 s = Res.ret () s ∧
      Posix.OGUnlockMutex os self 0 s = Res.ret () s ∧
      Posix.OGJoinThread os retval 0 s = Res.ret 0 s) ∧
    (∀ (σ : Type) (os : WinOS σ) (self : Tid) (s : σ),
      Windows.OGLockMutex os self 0 s = call (os.EnterCriticalSection self 0) s ∧
      Windows.OGUnlockMutex os self 0 s = call (os.LeaveCriticalSection self 0) s) ∧
    Windows.OGLockMutex recWin 1 0 [] = Res.ret () [WinCall.EnterCriticalSection 0] ∧
    Windows.OGUnlockMutex recWin 1 0 [] = Res.ret () [WinCall.LeaveCriticalSection 0] ∧
    Windows.OGJoinThread recWin 0 []
      = Res.ret 0 [WinCall.WaitForSingleObject 0, WinCall.CloseHandle 0] ∧
    Windows.OGLockMutex refWin 1 0 (WinWorld.empty 8 true) = Res.hang := by
  refine ⟨fun _ _ _ _ _ => ⟨rfl, rfl, rfl⟩, fun _ _ _ _ => ⟨rfl, rfl⟩, rfl, rfl, rfl, rfl⟩

/-- C2. The Windows `OGJoinThread` returns null whenever it returns, whatever the thread
produced: joining a thread whose entry function returns 42 yields 0 in the reference
Windows system, while the same program yields 42 in the reference POSIX system. -/
theorem windows_join_discards_result :
    (∀ (σ : Type) (os : WinOS σ) (ot : Ptr) (s : σ) (v : Ptr),
      (Windows.OGJoinThread os ot s).value? = some v → v = 0) ∧
    (Windows.OGCreateThread refWin (fun _ => some 42) 0 (WinWorld.empty 8 true)).value? = some 1 ∧
    ((Windows.OGCreateThread refWin (fun _ => some 42) 0 >>= fun h =>
        Windows.OGJoinThread refWin h) (WinWorld.empty 8 true)).value? = some 0 ∧
    ((Posix.OGCreateThread (refPosix 32767) (fun _ => some 42) 0 >>= fun h =>
        Posix.OGJoinThread (refPosix 32767) 0 h) (PosixWorld.empty 8)).value? = some 42 := by
  refine ⟨?_, rfl, rfl, rfl⟩
  intro σ os ot s v h
  unfold Windows.OGJoinThread at h
  cases h1 : call (os.WaitForSingleObject ot) s with
  | hang => rw [bind_hang _ _ _ h1] at h; simp [Res.value?] at h
  | abort s1 => rw [bind_abort _ _ _ _ h1] at h; simp [Res.value?] at h
  | ret a s1 =>
    rw [bind_ret _ _ _ _ _ h1] at h
    cases h2 : call (os.CloseHandle ot) s1 with
    | hang => rw [bind_hang _ _ _ h2] at h; simp [Res.value?] at h
    | abort s2 => rw [bind_abort _ _ _ _ h2] at h; simp [Res.value?] at h
    | ret b s2 =>
      rw [bind_ret _ _ _ _ _ h2] at h
      simp [pure_run, Res.value?] at h
      exact h.symm

/-- C4. In the reference POSIX system a semaphore made by `OGCreateSema` and signalled
`k` times reports `min k SEM_VALUE_MAX`: nothing in the POSIX wrappers caps it at 32767,
and with the `SEM_VALUE_MAX` of glibc, 2147483647, it reports 32768 after 32768
signals.  In the reference Windows system it reports `min k 32767`. -/
theorem posix_sema_count_exceeds_32767 :
    (∀ (smax : Nat) (w : PosixWorld) (k : Nat) (valp : Int),
      ((Posix.OGCreateSema (refPosix smax) >>= fun sem =>
        repeatProg (Posix.OGUnlockSema (refPosix smax) sem) k >>= fun _ =>
        Posix.OGGetSema (refPosix smax) valp sem) w).value? = some ((min k smax : Nat) : Int)) ∧
    ((Posix.OGCreateSema (refPosix 2147483647) >>= fun sem =>
        repeatProg (Posix.OGUnlockSema (refPosix 2147483647) sem) 32768 >>= fun _ =>
        Posix.OGGetSema (refPosix 2147483647) 0 sem) (PosixWorld.empty 8)).value? = some 32768 ∧
    (∀ (w : WinWorld) (k : Nat), w.nextHandle < w.handleLimit → w.exportsQuery = true →
      ((Windows.OGCreateSema refWin >>= fun sem =>
        repeatProg (Windows.OGUnlockSema refWin sem) k >>= fun _ =>
        Windows.OGGetSema refWin sem) w).value? = some ((min k 32767 : Nat) : Int)) := by
  refine ⟨posix_sema_after_posts, ?_, fun w k h1 h2 => win_sema_after_posts w k h1 h2⟩
  rw [posix_sema_after_posts 2147483647 (PosixWorld.empty 8) 32768 0]
  rfl

/-- C5. When `sem_getvalue` fails and stores nothing, the POSIX `OGGetSema` returns
whatever its uninitialised local `valp` held, which need not be negative. -/
theorem posix_get_sema_ignores_failure {σ : Type} (os : PosixOS σ) (valp : Int) (sem : Ptr)
    (s s1 : σ) (rc : Int) (hfail : os.sem_getvalue sem s = some ((rc, none), s1)) :
    Posix.OGGetSema os valp sem s = Res.ret valp s1 := by
  unfold Posix.OGGetSema
  rw [bind_ret _ _ _ _ _ (call_some _ _ _ _ hfail)]
  rfl

/-- Witness for C5: querying a semaphore that was never initialised, with `valp`
holding 0, returns 0. -/
theorem posix_get_sema_ignores_failure_witness :
    Posix.OGGetSema (refPosix 32767) 0 5 (PosixWorld.empty 8) = Res.ret 0 (PosixWorld.empty 8) ∧
    ¬ ((0 : Int) < 0) :=
  ⟨posix_get_sema_ignores_failure (refPosix 32767) 0 5 (PosixWorld.empty 8) (PosixWorld.empty 8)
    (-1) rfl, by decide⟩

/-- C6. In the POSIX backend `OGCreateMutex`, and `OGLockMutex` / `OGUnlockMutex` on a
non-null handle, reach `abort()` (after the diagnostic line has been written to `stderr`)
exactly when the underlying `pthread_mutex_init` / `pthread_mutex_lock` /
`pthread_mutex_unlock` call came back with a non-zero code; with code zero they return
normally, `OGCreateMutex` returning the handle it allocated and the two others nothing. -/
theorem posix_mutex_abort_iff_error {σ : Type} (os : PosixOS σ) (self : Tid) (om : Ptr)
    (s s1 s2 sl su : σ) (r : Ptr) (ec el eu : Int)
    (hom : om ≠ 0)
    (hmalloc : os.malloc os.sizeof_pthread_mutex_t s = some (r, s1))
    (hinit : os.pthread_mutex_init r { kind := MutexType.recursive } s1 = some (ec, s2))
    (hlock : os.pthread_mutex_lock self om s = some (el, sl))
    (hunlock : os.pthread_mutex_unlock self om s = some (eu, su)) :
    (((Posix.OGCreateMutex os s).aborted = true ↔ ec ≠ 0) ∧
      (ec ≠ 0 → Posix.OGCreateMutex os s = Res.abort (os.fprintf_stderr "OGCreateMutex" ec s2)) ∧
      (ec = 0 → Posix.OGCreateMutex os s = Res.ret r s2)) ∧
    (((Posix.OGLockMutex os self om s).aborted = true ↔ el ≠ 0) ∧
      (el ≠ 0 → Posix.OGLockMutex os self om s = Res.abort (os.fprintf_stderr "OGLockMutex" el sl)) ∧
      (el = 0 → Posix.OGLockMutex os self om s = Res.ret () sl)) ∧
    (((Posix.OGUnlockMutex os self om s).aborted = true ↔ eu ≠ 0) ∧
      (eu ≠ 0 → Posix.OGUnlockMutex os self om s = Res.abort (os.fprintf_stderr "OGUnlockMutex" eu su)) ∧
      (eu = 0 → Posix.OGUnlockMutex os self om s = Res.ret () su)) := by
  refine ⟨?_, handle_cases os _ el sl _ (lock_step os self om hom s sl el hlock),
    handle_cases os _ eu su _ (unlock_step os self om hom s su eu hunlock)⟩
  rw [create_mutex_step os s s1 s2 r ec hmalloc hinit]
  by_cases he : ec = 0
  · subst he
    rw [bind_ret _ _ _ _ _ (handle_zero os _ s2)]
    simp [pure_run, Res.aborted]
  · rw [bind_abort _ _ _ _ (handle_nonzero os _ ec he s2)]
    simp [Res.aborted, he]

/-- Witness for C6: in the reference system, locking or unlocking a mutex that was never
initialised makes the primitive fail with `EINVAL`, and the wrapper aborts; creating a
mutex succeeds and returns the allocated handle. -/
theorem posix_mutex_abort_iff_error_witness :
    (Posix.OGLockMutex (refPosix 32767) 1 5 (PosixWorld.empty 8)).aborted = true ∧
    (Posix.OGUnlockMutex (refPosix 32767) 1 5 (PosixWorld.empty 8)).aborted = true ∧
    (Posix.OGCreateMutex (refPosix 32767) (PosixWorld.empty 8)).value? = some 1 := by
  have h := posix_mutex_abort_iff_error (refPosix 32767) 1 5 (PosixWorld.empty 8) _ _
    (PosixWorld.empty 8) (PosixWorld.empty 8) 1 0 22 22 (by decide) rfl rfl rfl rfl
  refine ⟨h.2.1.1.mpr (by decide), h.2.2.1.mpr (by decide), ?_⟩
  rw [h.1.2.2 rfl]
  rfl

/-- C7. `OGCreateThread` returns null exactly when thread creation failed.  POSIX, on a
system where `pthread_create` does not succeed through a null `pthread_t` pointer: it
returns the block `p` it allocated when `pthread_create` came back with 0, and null
(after freeing `p`) otherwise; `OGJoinThread` on `p` joins the `pthread_t` stored at
`p`, which in the reference system is the thread just created, whose value the join
returns.  Windows: it returns what `CreateThread` returns, null on failure, and
`OGJoinThread` waits on and closes that same handle. -/
theorem create_thread_null_iff_failure {σ τ : Type} (os : PosixOS σ) (wos : WinOS τ)
    (routine : Routine) (parameter : Ptr) (s s1 s2 s3 : σ) (p : Ptr) (r : Int)
    (hmalloc : os.malloc os.sizeof_pthread_t s = some (p, s1))
    (hcreate : os.pthread_create p routine parameter s1 = some (r, s2))
    (hp : r = 0 → p ≠ 0)
    (hfree : os.free p s2 = some ((), s3)) :
    (r ≠ 0 → Posix.OGCreateThread os routine parameter s = Res.ret 0 s3) ∧
    (r = 0 → Posix.OGCreateThread os routine parameter s = Res.ret p s2) ∧
    (∀ h, (Posix.OGCreateThread os routine parameter s).value? = some h → (h = 0 ↔ r ≠ 0)) ∧
    (∀ (retval : Ptr) (sj sk sl : σ) (rc : Int) (stored : Option Ptr), r = 0 →
      os.pthread_join (os.load_pthread_t p sj) sj = some ((rc, stored), sk) →
      os.free p sk = some ((), sl) →
      Posix.OGJoinThread os retval p sj = Res.ret (stored.getD retval) sl) ∧
    (∀ (smax : Nat) (w : PosixWorld) (retval v : Ptr),
      w.nextThread ≤ w.threadLimit → routine parameter = some v →
      ∃ w1 w2, Posix.OGCreateThread (refPosix smax) routine parameter w = Res.ret (w.brk + 1) w1 ∧
        w1.cells (w.brk + 1) = w.nextThread ∧
        w1.threads w.nextThread = some (some v) ∧
        Posix.OGJoinThread (refPosix smax) retval (w.brk + 1) w1 = Res.ret v w2 ∧
        w2.threads w.nextThread = none) ∧
    (∀ (smax : Nat) (w : PosixWorld), w.threadLimit < w.nextThread →
      (Posix.OGCreateThread (refPosix smax) routine parameter w).value? = some 0) ∧
    (∀ (t : τ), Windows.OGCreateThread wos routine parameter t
      = call (wos.CreateThread routine parameter) t) ∧
    (∀ (t t1 t2 : τ) (h : Ptr) (d : Nat) (b : Bool),
      wos.WaitForSingleObject h t = some (d, t1) → wos.CloseHandle h t1 = some (b, t2) →
      Windows.OGJoinThread wos h t = Res.ret 0 t2) ∧
    (∀ (w : WinWorld) (v : Ptr), w.nextHandle < w.handleLimit → routine parameter = some v →
      ∃ w1 w2, Windows.OGCreateThread refWin routine parameter w = Res.ret (w.nextHandle + 1) w1 ∧
        w1.objects (w.nextHandle + 1) = some (WinObject.thread (some v)) ∧
        Windows.OGJoinThread refWin (w.nextHandle + 1) w1 = Res.ret 0 w2 ∧
        w2.objects (w.nextHandle + 1) = none) ∧
    (∀ (w : WinWorld), ¬ w.nextHandle < w.handleLimit →
      Windows.OGCreateThread refWin routine parameter w = Res.ret 0 w) := by
  have e := posix_create_thread_step os routine parameter s s1 s2 p r hmalloc hcreate
  have fail : r ≠ 0 → Posix.OGCreateThread os routine parameter s = Res.ret 0 s3 := by
    intro hr
    rw [e]
    simp only [hr, ne_eq, not_false_eq_true, if_true]
    rw [bind_ret _ _ _ _ _ (call_some _ _ _ _ hfree)]
    rfl
  have ok : r = 0 → Posix.OGCreateThread os routine parameter s = Res.ret p s2 := by
    intro hr
    rw [e]
    simp [hr, pure_run]
  refine ⟨fail, ok, ?_, ?_, ?_, ?_, fun _ => rfl, ?_, ?_, ?_⟩
  · intro h hv
    by_cases hr : r = 0
    · rw [ok hr] at hv
      simp only [Res.value?, Option.some.injEq] at hv
      subst hv
      simp [hr, hp hr]
    · rw [fail hr] at hv
      simp only [Res.value?, Option.some.injEq] at hv
      simp [hr, hv.symm]
  · intro retval sj sk sl rc stored hr hj hf
    exact posix_join_step os retval p (hp hr) sj sk sl rc stored hj hf
  · intro smax w retval v hroom hv
    have hc : Posix.OGCreateThread (refPosix smax) routine parameter w
        = Res.ret (w.brk + 1)
            { w with brk := w.brk + 8,
                     threads := upd w.threads w.nextThread (some (routine parameter)),
                     cells := upd w.cells (w.brk + 1) w.nextThread,
                     nextThread := w.nextThread + 1 } := by
      have a : (refPosix smax).malloc (refPosix smax).sizeof_pthread_t w
          = some (w.brk + 1, { w with brk := w.brk + 8 }) := rfl
      have b : (refPosix smax).pthread_create (w.brk + 1) routine parameter
            { w with brk := w.brk + 8 }
          = some (0,
            { w with brk := w.brk + 8,
                     threads := upd w.threads w.nextThread (some (routine parameter)),
                     cells := upd w.cells (w.brk + 1) w.nextThread,
                     nextThread := w.nextThread + 1 }) := by
        simp [refPosix, refThreadCreate, hroom]
      rw [posix_create_thread_step (refPosix smax) routine parameter w _ _ _ 0 a b]
      rfl
    refine ⟨_,
      { w with brk := w.brk + 8,
               threads := upd (upd w.threads w.nextThread (some (routine parameter)))
                 w.nextThread none,
               cells := upd w.cells (w.brk + 1) w.nextThread,
               nextThread := w.nextThread + 1 },
      hc, by simp [upd], by simp [upd, hv], ?_, by simp [upd]⟩
    refine posix_join_step (refPosix smax) retval (w.brk + 1) (Nat.succ_ne_zero _) _ _ _ 0 (some v) ?_ rfl
    simp [refPosix, refThreadJoin, upd, hv]
  · intro smax w hfull
    have a : (refPosix smax).malloc (refPosix smax).sizeof_pthread_t w
        = some (w.brk + 1, { w with brk := w.brk + 8 }) := rfl
    have b : (refPosix smax).pthread_create (w.brk + 1) routine parameter
          { w with brk := w.brk + 8 } = some (11, { w with brk := w.brk + 8 }) := by
      simp [refPosix, refThreadCreate, not_le.mpr hfull]
    rw [posix_create_thread_step (refPosix smax) routine parameter w _ _ _ 11 a b]
    rfl
  · intro t t1 t2 h d b hw hcl
    unfold Windows.OGJoinThread
    rw [bind_ret _ _ _ _ _ (call_some _ _ _ _ hw), bind_ret _ _ _ _ _ (call_some _ _ _ _ hcl)]
    rfl
  · intro w v hroom hv
    have hc : Windows.OGCreateThread refWin routine parameter w
        = Res.ret (w.nextHandle + 1)
            (WinWorld.setObject { w with nextHandle := w.nextHandle + 1 } (w.nextHandle + 1)
              (WinObject.thread (some v))) := by
      have a : refWin.CreateThread routine parameter w
          = some (w.nextHandle + 1,
              WinWorld.setObject { w with nextHandle := w.nextHandle + 1 } (w.nextHandle + 1)
                (WinObject.thread (some v))) := by
        simp [refWin, refNewHandle, hroom, hv]
      exact call_some _ _ _ _ a
    refine ⟨_,
      { w with nextHandle := w.nextHandle + 1,
               objects := upd (upd w.objects (w.nextHandle + 1)
                 (some (WinObject.thread (some v)))) (w.nextHandle + 1) none },
      hc, setObject_get _ _ _, ?_, by simp [upd]⟩
    unfold Windows.OGJoinThread
    have a : refWin.WaitForSingleObject (w.nextHandle + 1)
          (WinWorld.setObject { w with nextHandle := w.nextHandle + 1 } (w.nextHandle + 1)
            (WinObject.thread (some v)))
        = some (0, WinWorld.setObject { w with nextHandle := w.nextHandle + 1 } (w.nextHandle + 1)
            (WinObject.thread (some v))) := by
      simp [refWin, refWait, setObject_get]
    have b : refWin.CloseHandle (w.nextHandle + 1)
          (WinWorld.setObject { w with nextHandle := w.nextHandle + 1 } (w.nextHandle + 1)
            (WinObject.thread (some v)))
        = some (true,
            { w with nextHandle := w.nextHandle + 1,
                     objects := upd (upd w.objects (w.nextHandle + 1)
                       (some (WinObject.thread (some v)))) (w.nextHandle + 1) none }) := by
      simp [refWin, WinWorld.setObject, upd_same]
    rw [bind_ret _ _ _ _ _ (call_some _ _ _ _ a), bind_ret _ _ _ _ _ (call_some _ _ _ _ b)]
    rfl
  · intro w hfull
    have a : refWin.CreateThread routine parameter w = some (0, w) := by
      simp [refWin, refNewHandle, hfull]
    exact call_some _ _ _ _ a

/-- Witness for C7: a reference system with no room for a thread yields null, one with
room yields the allocated block. -/
theorem create_thread_null_iff_failure_witness :
    Posix.OGCreateThread (refPosix 32767) (fun _ => some 42) 0 (PosixWorld.empty 0)
      = Res.ret 0 { PosixWorld.empty 0 with brk := 8 } ∧
    (Posix.OGCreateThread (refPosix 32767) (fun _ => some 42) 0 (PosixWorld.empty 8)).value?
      = some 1 := by
  refine ⟨(create_thread_null_iff_failure (refPosix 32767) refWin (fun _ => some 42) 0
      (PosixWorld.empty 0) _ _ _ 1 11 rfl rfl (fun _ => by decide) rfl).1 (by decide), ?_⟩
  rfl

/-- C8. The Windows `OGGetFileTime` returns `-1` when the file cannot be opened, but for
a file it can open it returns the 32-bit sum `dwHighDateTime + dwLowDateTime` of the two
halves of the last-write time, not that time: files last written at `2^32` and at `1`
both give `1`, and a file written at `(30655388, 4294967295)` gives 30655387 where one
written a tick later gives 30655389.  The POSIX `OGGetFileTime` returns `-1` when `stat`
comes back negative and the file's `st_mtime` converted to `double` otherwise (exact
below `2^53`, rounded past it); `stat` is its only call, so when `stat` leaves the
system as it found it a second query returns the same value. -/
theorem windows_file_time_adds_halves :
    (∀ (σ : Type) (os : WinOS σ) (file : String) (s s1 s2 s3 : σ) (h : Ptr) (ok closed : Bool)
        (ft : FILETIME),
      os.CreateFile file s = some (h, s1) → h ≠ os.INVALID_HANDLE_VALUE →
      os.GetFileTime h s1 = some ((ok, ft), s2) → os.CloseHandle h s2 = some (closed, s3) →
      Windows.OGGetFileTime os file s
        = Res.ret (((ft.dwHighDateTime + ft.dwLowDateTime) % 4294967296 : Nat) : Int) s3) ∧
    (Windows.OGGetFileTime refWin "a"
      { WinWorld.empty 8 true with
        files := fun _ => some { dwLowDateTime := 0, dwHighDateTime := 1 } }).value? = some 1 ∧
    (Windows.OGGetFileTime refWin "a"
      { WinWorld.empty 8 true with
        files := fun _ => some { dwLowDateTime := 1, dwHighDateTime := 0 } }).value? = some 1 ∧
    (Windows.OGGetFileTime refWin "a"
      { WinWorld.empty 8 true with
        files := fun _ => some { dwLowDateTime := 4294967295, dwHighDateTime := 30655388 } }).value?
      = some 30655387 ∧
    (Windows.OGGetFileTime refWin "a"
      { WinWorld.empty 8 true with
        files := fun _ => some { dwLowDateTime := 0, dwHighDateTime := 30655389 } }).value?
      = some 30655389 ∧
    (Windows.OGGetFileTime refWin "a" (WinWorld.empty 8 true)).value? = some (-1) ∧
    (∀ (σ : Type) (os : PosixOS σ) (file : String) (s s1 : σ) (r : Int) (buff : stat_buf),
      os.stat file s = some ((r, buff), s1) →
      (r < 0 → Posix.OGGetFileTime os file s = Res.ret (-1) s1) ∧
      (0 ≤ r → Posix.OGGetFileTime os file s = Res.ret (toDouble buff.st_mtime) s1) ∧
      (0 ≤ r → -9007199254740992 < buff.st_mtime → buff.st_mtime < 9007199254740992 →
        Posix.OGGetFileTime os file s = Res.ret buff.st_mtime s1) ∧
      (0 ≤ r → buff.st_mtime = 9007199254740993 →
        Posix.OGGetFileTime os file s = Res.ret 9007199254740992 s1) ∧
      (s1 = s → ∃ v, Posix.OGGetFileTime os file s = Res.ret v s ∧
        (Posix.OGGetFileTime os file >>= fun a =>
          Posix.OGGetFileTime os file >>= fun b => pure (a, b)) s = Res.ret (v, v) s)) := by
  refine ⟨?_, ?_, ?_, ?_, ?_, ?_, ?_⟩
  · intro σ os file s s1 s2 s3 h ok closed ft hopen hh hg hc
    exact (windows_file_time_value os file s s1 s2 s3 h ok closed ft hopen).2 hh hg hc
  · rfl
  · rfl
  · rfl
  · rfl
  · rfl
  · intro σ os file s s1 r buff hstat
    have h := posix_file_time_value os file s s1 r buff hstat
    refine ⟨h.1, h.2.1, ?_, ?_, h.2.2⟩
    · intro hr h1 h2
      rw [h.2.1 hr, toDouble_small _ h1 h2]
    · intro hr h1
      rw [h.2.1 hr, h1, toDouble_rounds]

/-- C9, amended with `0 ≤ sec`.  For two clock readings with non-negative seconds,
microseconds in `0 .. 999,999` and `sec * 1000 + 999 < 2^64`, ordered by
`sec * 1,000,000 + usec`, the values returned by the POSIX `OGGetAbsoluteTimeMS` are
ordered the same way, and each is `(sec * 1,000,000 + usec) / 1000` rounded down. -/
theorem absolute_time_ms_monotone (sec1 usec1 sec2 usec2 : Int)
    (hs1 : 0 ≤ sec1) (hs2 : 0 ≤ sec2)
    (hu1 : 0 ≤ usec1 ∧ usec1 < 1000000) (hu2 : 0 ≤ usec2 ∧ usec2 < 1000000)
    (hb1 : sec1 * 1000 + 999 < 2 ^ 64) (hb2 : sec2 * 1000 + 999 < 2 ^ 64)
    (hle : sec1 * 1000000 + usec1 ≤ sec2 * 1000000 + usec2) :
    Posix.OGGetAbsoluteTimeMS_value { tv_sec := sec1, tv_usec := usec1 }
      ≤ Posix.OGGetAbsoluteTimeMS_value { tv_sec := sec2, tv_usec := usec2 } ∧
    (Posix.OGGetAbsoluteTimeMS_value { tv_sec := sec1, tv_usec := usec1 } : Int)
      = (sec1 * 1000000 + usec1) / 1000 ∧
    (Posix.OGGetAbsoluteTimeMS_value { tv_sec := sec2, tv_usec := usec2 } : Int)
      = (sec2 * 1000000 + usec2) / 1000 ∧
    (∀ (σ : Type) (os : PosixOS σ) (s s1 : σ) (tv : timeval),
      os.gettimeofday s = some (tv, s1) →
      Posix.OGGetAbsoluteTimeMS os s = Res.ret (Posix.OGGetAbsoluteTimeMS_value tv) s1) := by
  have e1 := absolute_time_ms_value sec1 usec1 hs1 hu1.1 hu1.2 hb1
  have e2 := absolute_time_ms_value sec2 usec2 hs2 hu2.1 hu2.2 hb2
  refine ⟨?_, e1, e2, ?_⟩
  · have : (Posix.OGGetAbsoluteTimeMS_value { tv_sec := sec1, tv_usec := usec1 } : Int)
        ≤ (Posix.OGGetAbsoluteTimeMS_value { tv_sec := sec2, tv_usec := usec2 } : Int) := by
      rw [e1, e2]
      exact Int.ediv_le_ediv (by norm_num) hle
    exact_mod_cast this
  · intro σ os s s1 tv h
    unfold Posix.OGGetAbsoluteTimeMS
    rw [bind_ret _ _ _ _ _ (call_some _ _ _ _ h)]
    rfl

/-- Counterexample to C9 as stated: the readings `(-1, 0)` and `(0, 0)` meet every
condition of the claim, yet the first converts to `2^64 - 1000`, which is neither below
the second value `0` nor equal to `(-1 * 1,000,000 + 0) / 1000 = -1000`. -/
theorem absolute_time_ms_negative_seconds :
    ((0 : Int) ≤ 0 ∧ (0 : Int) < 1000000) ∧
    (-1 : Int) * 1000000 + 0 ≤ 0 * 1000000 + 0 ∧
    (-1 : Int) * 1000 + 999 < 2 ^ 64 ∧ (0 : Int) * 1000 + 999 < 2 ^ 64 ∧
    Posix.OGGetAbsoluteTimeMS_value { tv_sec := -1, tv_usec := 0 } = 18446744073709550616 ∧
    Posix.OGGetAbsoluteTimeMS_value { tv_sec := 0, tv_usec := 0 } = 0 ∧
    ¬ (Posix.OGGetAbsoluteTimeMS_value { tv_sec := -1, tv_usec := 0 }
        ≤ Posix.OGGetAbsoluteTimeMS_value { tv_sec := 0, tv_usec := 0 }) ∧
    (Posix.OGGetAbsoluteTimeMS_value { tv_sec := -1, tv_usec := 0 } : Int)
      ≠ ((-1 : Int) * 1000000 + 0) / 1000 := by
  have a : Posix.OGGetAbsoluteTimeMS_value { tv_sec := -1, tv_usec := 0 } = 18446744073709550616 := by
    decide
  have b : Posix.OGGetAbsoluteTimeMS_value { tv_sec := 0, tv_usec := 0 } = 0 := by decide
  refine ⟨by decide, by decide, by decide, by decide, a, b, ?_, ?_⟩
  · rw [a, b]; decide
  · rw [a]; decide

/-- Witness for C9: the readings `(1, 999999)` and `(2, 0)`. -/
theorem absolute_time_ms_monotone_witness :
    Posix.OGGetAbsoluteTimeMS_value { tv_sec := 1, tv_usec := 999999 }
      ≤ Posix.OGGetAbsoluteTimeMS_value { tv_sec := 2, tv_usec := 0 } ∧
    (Posix.OGGetAbsoluteTimeMS_value { tv_sec := 1, tv_usec := 999999 } : Int) = 1999 :=
  ⟨(absolute_time_ms_monotone 1 999999 2 0 (by decide) (by decide) (by decide) (by decide)
      (by decide) (by decide) (by decide)).1,
   (absolute_time_ms_monotone 1 999999 2 0 (by decide) (by decide) (by decide) (by decide)
      (by decide) (by decide) (by decide)).2.1⟩

end OSGeneric
